import Mathlib

/-!
# HDR+ command-line driver: buffer contract and TIFF encoder

A shallow embedding of `src/bin/HDRPlus.cpp` (the class `HDRPlus` with `process` and
`save_tiff`, and the function `main`), followed by theorems about it.

Conventions of the embedding.

* C++ `int` is a 32-bit two's-complement integer. The two products the source computes
  on `int` operands, `y * width * channels` (line 92) and `width * channels` (line 88),
  go through `wrapInt32`: a signed overflow, undefined in C++, is given its wrapped
  value. The same holds for the strides Halide computes when it allocates a buffer. The loop counters `y++` and `i++` cannot leave the `int` range (they stay
  below `height`, resp. `argc + 2`) and are exact.
* Effects are recorded as a list of `Event`s in program order. What libtiff and the file
  system do during one call is a parameter (`TiffLib`), so every theorem holds for every
  outcome of the I/O.
* `Burst` (header `src/Burst.h`) and `hdrplus_pipeline` (a generated header) are not in
  the translated file; the values they return are parameters.
* `Halide::Runtime::Buffer` is the Halide runtime library: a list of
  `halide_dimension_t` descriptors (axis 0 first) over host memory.
* `argv` is the list of the `argc` argument strings. `argv[argc]` is the null pointer;
  using `argv[k]` as a string for `k ≥ argc` ends the run as a fault.
-/

namespace HDRPlusCpp

/-! ## Machine integers -/

/-- Value of a C++ `int` expression whose mathematical value is `z`
(32 bits, two's complement, wrapping). -/
def wrapInt32 (z : Int) : Int := (z + 2147483648) % 4294967296 - 2147483648

/-- Conversion of an `int` to `uint32_t`, as happens when an `int` is passed for a
`uint32_t` parameter of libtiff. -/
def toUInt32 (z : Int) : Nat := (z % 4294967296).toNat

/-! ## Halide runtime buffers -/

/-- One axis of a Halide buffer: `halide_dimension_t`. -/
structure halide_dimension_t where
  min : Int
  extent : Int
  stride : Int
deriving DecidableEq, Repr

/-- `Halide::Runtime::Buffer<T>`: the shape (axis 0 first) and the host memory, given as
the element stored at each offset (in elements) from `data()`. -/
structure Buffer where
  dim : List halide_dimension_t
  host : Int → Nat

/-- `Buffer::dimensions()`. -/
def Buffer.dimensions (b : Buffer) : Int := b.dim.length

/-- `Buffer::dim(i)`; `i` is in range at every call site of the program. -/
def Buffer.dimAt (b : Buffer) (i : Nat) : halide_dimension_t := b.dim.getD i ⟨0, 0, 0⟩

/-- `Buffer::extent(i)`, that is `dim(i).extent()`. -/
def Buffer.extent (b : Buffer) (i : Nat) : Int := (b.dimAt i).extent

/-- `Buffer::width()`: `(dimensions() > 0) ? dim(0).extent() : 1`. -/
def Buffer.width (b : Buffer) : Int := if b.dimensions > 0 then b.extent 0 else 1

/-- `Buffer::height()`: `(dimensions() > 1) ? dim(1).extent() : 1`. -/
def Buffer.height (b : Buffer) : Int := if b.dimensions > 1 then b.extent 1 else 1

/-- `Buffer::channels()`: `(dimensions() > 2) ? dim(2).extent() : 1`. -/
def Buffer.channels (b : Buffer) : Int := if b.dimensions > 2 then b.extent 2 else 1

/-- `Buffer::transpose(d1, d2)`: swaps the two dimension descriptors, leaving the host
memory untouched. -/
def Buffer.transpose (b : Buffer) (d1 d2 : Nat) : Buffer :=
  { b with dim := (b.dim.set d1 (b.dimAt d2)).set d2 (b.dimAt d1) }

/-- Offset from `data()` of the element at coordinates `pos` (one coordinate per axis):
the sum of `stride * (coordinate - min)` over the axes. -/
def Buffer.offsetOf (b : Buffer) (pos : List Int) : Int :=
  (List.zipWith (fun d p => d.stride * (p - d.min)) b.dim pos).sum

/-- Element access `b(pos...)`. -/
def Buffer.get (b : Buffer) (pos : List Int) : Nat := b.host (b.offsetOf pos)

/-- The constructor `Buffer(first, second, third)`: a dense allocation with mins 0. As
in Halide, the stride of an axis is the stride of the axis before it times the extent of
that axis, computed and stored in the 32-bit `stride` field of `halide_dimension_t`: the
strides are `1`, `1 * first` and `(1 * first) * second`, each wrapped to 32 bits. The
contents are unspecified until written; the embedding starts them at 0. -/
def Buffer.alloc3 (first second third : Int) : Buffer :=
  let stride1 := wrapInt32 (1 * first)
  let stride2 := wrapInt32 (stride1 * second)
  { dim := [⟨0, first, 1⟩, ⟨0, second, stride1⟩, ⟨0, third, stride2⟩]
    host := fun _ => 0 }

/-! ## Collaborators that are parameters -/

/-- A `float` that the driver only passes along: a literal of the source, the result of
`atof` on an argument string, or a value obtained from the burst. -/
inductive Scalar where
  | lit (text : String)
  | atof (arg : String)
  | bits (pattern : Nat)
deriving DecidableEq, Repr

/-- The white-balance gains returned by `Burst::GetWhiteBalance`. -/
structure WhiteBalance where
  r : Scalar
  g0 : Scalar
  g1 : Scalar
  b : Scalar
deriving DecidableEq, Repr

/-- What the accessors of a `Burst` return (the class itself is in `src/Burst.h`). -/
structure Burst where
  GetWidth : Int
  GetHeight : Int
  GetBlackLevel : Int
  GetWhiteLevel : Int
  GetWhiteBalance : WhiteBalance
  GetCfaPattern : Int
  GetColorCorrectionMatrix : Buffer
  ToBuffer : Buffer

/-- The generated function `hdrplus_pipeline`, with the twelve arguments of the call in
`process`. It writes samples into the host memory of its last argument and leaves the
shape of that buffer alone; the value is the host memory after the call. -/
abbrev Pipeline : Type :=
  Buffer → Int → Int → Scalar → Scalar → Scalar → Scalar → Int → Buffer →
    Scalar → Scalar → Buffer → (Int → Nat)

/-- A libtiff file handle (`TIFF *`, non-null). -/
abbrev Handle : Type := Nat

/-- The TIFF tags set by `save_tiff`. -/
inductive Tag where
  | IMAGEWIDTH
  | IMAGELENGTH
  | SAMPLESPERPIXEL
  | BITSPERSAMPLE
  | ORIENTATION
  | PLANARCONFIG
  | PHOTOMETRIC
  | ROWSPERSTRIP
deriving DecidableEq, Repr

/-- The values passed to `TIFFSetField`: an `int`, one of the named constants of
`tiffio.h`, or the `uint32_t` returned by `TIFFDefaultStripSize`. -/
inductive TagValue where
  | int (v : Int)
  | ORIENTATION_TOPLEFT
  | PLANARCONFIG_CONTIG
  | PHOTOMETRIC_RGB
  | uint32 (v : Nat)
deriving DecidableEq, Repr

/-- The diagnostics written to `std::cerr`. -/
inductive Msg where
  | blackPoint (v : Int)
  | whitePoint (v : Int)
  | rggb (wb : WhiteBalance)
  | notThreeChannels
  | couldNotOpen (img_path : String)
  | scanlineError (y : Int) (img_path : String)
  | usage (prog : String)
  | invalidFlag (flag : Char)
deriving DecidableEq, Repr

/-- The observable actions of the program, in program order. Pointers into the image are
recorded as offsets from `img.data()`. -/
inductive Event where
  | cerr (m : Msg)
  | hdrplus_pipeline
  | BurstCtor (dir_path : String) (in_names : List String)
  | TIFFOpen (img_path : String) (mode : String)
  | TIFFSetField (tif : Handle) (tag : Tag) (value : TagValue)
  | TIFFDefaultStripSize (tif : Handle) (request : Nat)
  | TIFFWriteScanline (tif : Handle) (buf : Int) (row : Int) (sample : Nat)
  | TIFFClose (tif : Handle)
deriving DecidableEq, Repr

/-- Behaviour of libtiff during one call of `save_tiff`: whether `TIFFOpen` yields a
handle, the value of `TIFFDefaultStripSize`, and the return value of each
`TIFFWriteScanline` (negative on failure). -/
structure TiffLib where
  TIFFOpen : String → String → Option Handle
  TIFFDefaultStripSize : Handle → Nat → Nat
  TIFFWriteScanline : Handle → Int → Int → Nat → Int

/-- The exceptions thrown by the translated code. -/
inductive Exn where
  | invalid_argument (what : String)
deriving DecidableEq, Repr

/-! ## `HDRPlus::process` (lines 29-59) -/

/-- `HDRPlus::process`. The members `c` and `g` and the burst are arguments. -/
def HDRPlus.process (burst : Burst) (c g : Scalar) (hdrplus_pipeline : Pipeline) :
    List Event × Except Exn Buffer :=
  let width := burst.GetWidth
  let height := burst.GetHeight
  let output_img := Buffer.alloc3 3 width height
  let wb := burst.GetWhiteBalance
  let log := [Event.cerr (Msg.blackPoint burst.GetBlackLevel),
              Event.cerr (Msg.whitePoint burst.GetWhiteLevel),
              Event.cerr (Msg.rggb wb)]
  let imgs := burst.ToBuffer
  if imgs.dimensions ≠ 3 ∨ imgs.extent 2 < 2 then
    (log, Except.error (Exn.invalid_argument
      "The input of HDRPlus must be a 3-dimensional buffer with at least two channels."))
  else
    let cfa_pattern := burst.GetCfaPattern
    let ccm := burst.GetColorCorrectionMatrix
    let output_img : Buffer :=
      { output_img with
        host := hdrplus_pipeline imgs burst.GetBlackLevel burst.GetWhiteLevel wb.r wb.g0
                  wb.g1 wb.b cfa_pattern ccm c g output_img }
    let output_img := output_img.transpose 0 1
    let output_img := output_img.transpose 1 2
    (log ++ [Event.hdrplus_pipeline], Except.ok output_img)

/-! ## `HDRPlus::save_tiff` (lines 61-102) -/

/-- The `int` expression `y * width * channels` of line 92, the offset added to
`img.data()` to obtain the row pointer. -/
def HDRPlus.rowOffset (width channels y : Int) : Int :=
  wrapInt32 (wrapInt32 (y * width) * channels)

/-- The scanline loop of `save_tiff` (lines 91-98), entered with counter `y`. The
result is the events of the loop and whether the loop ran to its end (`true`) or left
the function through `return false` (`false`). -/
def HDRPlus.scanlineLoop (lib : TiffLib) (tif : Handle) (img_path : String)
    (width height channels : Int) (y : Int) : List Event × Bool :=
  if y < height then
    let row := HDRPlus.rowOffset width channels y
    if lib.TIFFWriteScanline tif row y 0 < 0 then
      ([Event.TIFFWriteScanline tif row y 0,
        Event.cerr (Msg.scanlineError y img_path),
        Event.TIFFClose tif], false)
    else
      let rest := HDRPlus.scanlineLoop lib tif img_path width height channels (y + 1)
      (Event.TIFFWriteScanline tif row y 0 :: rest.1, rest.2)
  else
    ([], true)
termination_by (height - y).toNat
decreasing_by omega

/-- The tag set-up of `save_tiff` (lines 81-88) on the open handle `tif`: seven
`TIFFSetField` calls, the call `TIFFDefaultStripSize(tif, width * channels)` and the
`TIFFSetField` that stores its result. The product `width * channels` is an `int`; it is
converted to the `uint32_t` parameter of `TIFFDefaultStripSize`. -/
def HDRPlus.tagSetup (lib : TiffLib) (tif : Handle) (width height channels : Int) :
    List Event :=
  let request := toUInt32 (wrapInt32 (width * channels))
  [Event.TIFFSetField tif Tag.IMAGEWIDTH (TagValue.int width),
   Event.TIFFSetField tif Tag.IMAGELENGTH (TagValue.int height),
   Event.TIFFSetField tif Tag.SAMPLESPERPIXEL (TagValue.int channels),
   Event.TIFFSetField tif Tag.BITSPERSAMPLE (TagValue.int 8),
   Event.TIFFSetField tif Tag.ORIENTATION TagValue.ORIENTATION_TOPLEFT,
   Event.TIFFSetField tif Tag.PLANARCONFIG TagValue.PLANARCONFIG_CONTIG,
   Event.TIFFSetField tif Tag.PHOTOMETRIC TagValue.PHOTOMETRIC_RGB,
   Event.TIFFDefaultStripSize tif request,
   Event.TIFFSetField tif Tag.ROWSPERSTRIP
     (TagValue.uint32 (lib.TIFFDefaultStripSize tif request))]

/-- `HDRPlus::save_tiff`: the events and the returned `bool`. -/
def HDRPlus.save_tiff (lib : TiffLib) (dir_path img_name : String) (img : Buffer) :
    List Event × Bool :=
  let img_path := dir_path ++ "/" ++ img_name
  if img.channels ≠ 3 then
    ([Event.cerr Msg.notThreeChannels], false)
  else
    match lib.TIFFOpen img_path "w" with
    | none =>
      ([Event.TIFFOpen img_path "w", Event.cerr (Msg.couldNotOpen img_path)], false)
    | some tif =>
      let width := img.width
      let height := img.height
      let channels := img.channels
      let header := Event.TIFFOpen img_path "w" :: HDRPlus.tagSetup lib tif width height channels
      let loop := HDRPlus.scanlineLoop lib tif img_path width height channels 0
      if loop.2 then
        (header ++ loop.1 ++ [Event.TIFFClose tif], true)
      else
        (header ++ loop.1, false)

/-! ## `main` (lines 105-162) -/

/-- The byte `s[n]` of a C string: the `n`-th character, or the terminating NUL. -/
def cstrAt (s : String) (n : Nat) : Char := s.toList.getD n (Char.ofNat 0)

/-- How the flag loop of `main` (lines 120-133) ends. -/
inductive LoopExit where
  | done (i : Nat) (c g : Scalar)
  | invalidFlag (i : Nat)
  | fault (i : Nat)
deriving DecidableEq, Repr

/-- The flag loop `while (argv[i][0] == '-')` of `main`, entered with index `i` and the
current `c` and `g`. The first component lists, in order, the index of every `argv[...]`
the loop evaluates. `argv` holds the `argc` argument strings; the entry `argv[argc]` is
the null pointer and there is nothing behind it, so using `argv[k]` as a string for
`k ≥ argc` ends the run as `LoopExit.fault k`. -/
def flagLoop (argv : List String) (i : Nat) (c g : Scalar) : List Nat × LoopExit :=
  if h : i < argv.length then
    if cstrAt argv[i] 0 = '-' then
      if cstrAt argv[i] 1 = 'c' then
        if h1 : i + 1 < argv.length then
          let rest := flagLoop argv (i + 2) (Scalar.atof argv[i + 1]) g
          (i :: i :: (i + 1) :: rest.1, rest.2)
        else
          ([i, i, i + 1], LoopExit.fault (i + 1))
      else if cstrAt argv[i] 1 = 'g' then
        if h1 : i + 1 < argv.length then
          let rest := flagLoop argv (i + 2) c (Scalar.atof argv[i + 1])
          (i :: i :: i :: (i + 1) :: rest.1, rest.2)
        else
          ([i, i, i, i + 1], LoopExit.fault (i + 1))
      else
        ([i, i, i, i], LoopExit.invalidFlag i)
    else
      ([i], LoopExit.done i c g)
  else
    ([i], LoopExit.fault i)
termination_by argv.length - i
decreasing_by all_goals omega

/-- How a run of `main` ends: a `return` with a status, the symbolic `EXIT_FAILURE`, an
exception that nothing catches, or the use of `argv[k]` with `k ≥ argc`. -/
inductive Exit where
  | status (n : Int)
  | EXIT_FAILURE
  | uncaught (e : Exn)
  | fault (k : Nat)
deriving DecidableEq, Repr

/-- A run of `main`: the indices of `argv` read by the flag loop, the events, and the way
the run ends. -/
structure MainRun where
  reads : List Nat
  events : List Event
  exit : Exit
deriving DecidableEq, Repr

/-- Lines 151-161 of `main`: construct the burst, process it, save the result.
`BurstCtor` stands for the constructor `Burst(dir_path, in_names)`. -/
def runBurst (dir_path out_name : String) (in_names : List String) (c g : Scalar)
    (BurstCtor : String → List String → Burst) (hdrplus_pipeline : Pipeline)
    (lib : TiffLib) : List Event × Exit :=
  let burst := BurstCtor dir_path in_names
  let processed := HDRPlus.process burst c g hdrplus_pipeline
  match processed.2 with
  | Except.error e => (Event.BurstCtor dir_path in_names :: processed.1, Exit.uncaught e)
  | Except.ok output =>
    let saved := HDRPlus.save_tiff lib dir_path out_name output
    if saved.2 then
      (Event.BurstCtor dir_path in_names :: processed.1 ++ saved.1, Exit.status 0)
    else
      (Event.BurstCtor dir_path in_names :: processed.1 ++ saved.1, Exit.EXIT_FAILURE)

/-- The function `main`; `argc` is the length of `argv`. -/
def main (argv : List String) (BurstCtor : String → List String → Burst)
    (hdrplus_pipeline : Pipeline) (lib : TiffLib) : MainRun :=
  let argc : Int := argv.length
  if argc < 5 then
    ⟨[], [Event.cerr (Msg.usage (argv.getD 0 ""))], Exit.status 1⟩
  else
    match flagLoop argv 1 (Scalar.lit "3.8f") (Scalar.lit "1.1f") with
    | (reads, LoopExit.fault k) => ⟨reads, [], Exit.fault k⟩
    | (reads, LoopExit.invalidFlag k) =>
      ⟨reads, [Event.cerr (Msg.invalidFlag (cstrAt (argv.getD k "") 1))], Exit.status 1⟩
    | (reads, LoopExit.done i c g) =>
      if argc - i < 4 then
        ⟨reads, [Event.cerr (Msg.usage (argv.getD 0 ""))], Exit.status 1⟩
      else
        let dir_path := argv.getD i ""
        let out_name := argv.getD (i + 1) ""
        let in_names := argv.drop (i + 2)
        let run := runBurst dir_path out_name in_names c g BurstCtor hdrplus_pipeline lib
        ⟨reads, run.1, run.2⟩

/-! ## Observations used to state the properties -/

/-- The output buffer right after the call of `hdrplus_pipeline` (line 52), before the
two transposes: the allocation of line 33 holding the samples the pipeline wrote. -/
def HDRPlus.pipelineOutput (burst : Burst) (c g : Scalar) (hdrplus_pipeline : Pipeline) :
    Buffer :=
  let wb := burst.GetWhiteBalance
  let output_img := Buffer.alloc3 3 burst.GetWidth burst.GetHeight
  { output_img with
    host := hdrplus_pipeline burst.ToBuffer burst.GetBlackLevel burst.GetWhiteLevel wb.r
              wb.g0 wb.g1 wb.b burst.GetCfaPattern burst.GetColorCorrectionMatrix c g
              output_img }

/-- Lines 55-56 of `process` on their own: `transpose(0, 1)` followed by
`transpose(1, 2)`. -/
def normalize_twostep (b : Buffer) : Buffer := (b.transpose 0 1).transpose 1 2

/-- The single permutation in the words of the specification, `(channel, x, y) →
(y, x, channel)`: the new axes 0, 1, 2 are the old axes 2, 1, 0. -/
def normalize_direct (b : Buffer) : Buffer :=
  { b with dim := [b.dimAt 2, b.dimAt 1, b.dimAt 0] }

/-- The single permutation `(channel, x, y) → (x, y, channel)`: the new axes 0, 1, 2 are
the old axes 1, 2, 0. -/
def permute_xyc (b : Buffer) : Buffer :=
  { b with dim := [b.dimAt 1, b.dimAt 2, b.dimAt 0] }

/-- Whether an event is a libtiff call (an operation on the output file). -/
def Event.isFileOp : Event → Bool
  | Event.TIFFOpen _ _ => true
  | Event.TIFFSetField _ _ _ => true
  | Event.TIFFDefaultStripSize _ _ => true
  | Event.TIFFWriteScanline _ _ _ _ => true
  | Event.TIFFClose _ => true
  | _ => false

/-- Whether an event is a `TIFFSetField` call. -/
def Event.isSetField : Event → Bool
  | Event.TIFFSetField _ _ _ => true
  | _ => false

/-- Whether an event is a `TIFFWriteScanline` call. -/
def Event.isWrite : Event → Bool
  | Event.TIFFWriteScanline _ _ _ _ => true
  | _ => false

/-- Whether an event is a `TIFFClose` call. -/
def Event.isClose : Event → Bool
  | Event.TIFFClose _ => true
  | _ => false

/-- The bytes one `TIFFWriteScanline` call reads: `n` consecutive bytes of the image
starting at offset `buf` from `data()`. For the tags set by `save_tiff` the scanline size
`n` is `width * 3`. -/
def scanlineBytes (img : Buffer) (n : Nat) (buf : Int) : List Nat :=
  (List.range n).map (fun i : Nat => img.host (buf + i))

/-- The bytes handed to libtiff by the `TIFFWriteScanline` calls of a trace, in order. -/
def emittedBytes (img : Buffer) (n : Nat) (trace : List Event) : List Nat :=
  trace.flatMap (fun e =>
    match e with
    | Event.TIFFWriteScanline _ buf _ _ => scanlineBytes img n buf
    | _ => [])

/-- The positional arguments as C9 reads them: directory, output name and at least two
raw input names; `none` when fewer than 4 arguments are left. -/
def positionalArgs : List String → Option (String × String × List String)
  | dir_path :: out_name :: raw1 :: raw2 :: more =>
    some (dir_path, out_name, raw1 :: raw2 :: more)
  | _ => none

/-- The arguments after the program name as C9 reads them: leading pairs of a `-c` or
`-g` flag and its value are consumed; an argument in flag position that starts with `-`
and whose second character is neither `c` nor `g` is an error; what remains must be the
positional arguments. `none` stands for exit status 1. -/
def usageAfterFlags : List String → Option (String × String × List String)
  | [] => none
  | [_] => none
  | a :: v :: rest =>
    if cstrAt a 0 = '-' then
      if cstrAt a 1 = 'c' ∨ cstrAt a 1 = 'g' then usageAfterFlags rest else none
    else positionalArgs (a :: v :: rest)

/-- The command line as C9 reads it: exit status 1 (`none`) when `argc < 5`, otherwise
the reading of the arguments after the program name. -/
def usageContract (argv : List String) : Option (String × String × List String) :=
  if argv.length < 5 then none else usageAfterFlags (argv.drop 1)

/-! ## Concrete inputs -/

/-- A libtiff for which every call succeeds: handle 7, strip size equal to the request. -/
def libOk : TiffLib :=
  { TIFFOpen := fun _ _ => some 7
    TIFFDefaultStripSize := fun _ n => n
    TIFFWriteScanline := fun _ _ _ _ => 1 }

/-- A pipeline that writes, at every offset, the offset itself modulo 256. -/
def pipeOffsets : Pipeline :=
  fun _ _ _ _ _ _ _ _ _ _ _ _ => fun k => (k % 256).toNat

/-- A burst of `frames` frames of `w` by `h` pixels with unit white balance. -/
def burstOf (w h frames : Int) : Burst :=
  { GetWidth := w
    GetHeight := h
    GetBlackLevel := 0
    GetWhiteLevel := 255
    GetWhiteBalance := ⟨Scalar.bits 1, Scalar.bits 1, Scalar.bits 1, Scalar.bits 1⟩
    GetCfaPattern := 0
    GetColorCorrectionMatrix := Buffer.alloc3 3 3 1
    ToBuffer := Buffer.alloc3 w h frames }

/-- An interleaved 8-bit RGB image of `w` by `h` pixels whose byte at offset `k` is
`k % 256`. -/
def interleavedImage (w h : Int) : Buffer :=
  { dim := [⟨0, w, 3⟩, ⟨0, h, 3 * w⟩, ⟨0, 3, 1⟩]
    host := fun k => (k % 256).toNat }

/-- A planar 8-bit RGB image of `w` by `h` pixels (strides `1`, `w`, `w * h`). -/
def planarImage (w h : Int) : Buffer :=
  { dim := [⟨0, w, 1⟩, ⟨0, h, w⟩, ⟨0, 3, w * h⟩]
    host := fun k => (k % 256).toNat }

/-- A libtiff whose `TIFFWriteScanline` fails on row 1 and succeeds on every other row. -/
def libFailRow1 : TiffLib :=
  { TIFFOpen := fun _ _ => some 7
    TIFFDefaultStripSize := fun _ n => n
    TIFFWriteScanline := fun _ _ row _ => if row = 1 then -1 else 1 }

/-! # Theorems -/

/-! ## `process` -/

/-- A burst that passes the check of line 43 makes `process` log three lines, call the
pipeline once and return the transposed output buffer. -/
theorem process_ok (burst : Burst) (c g : Scalar) (p : Pipeline)
    (hd : burst.ToBuffer.dimensions = 3) (hf : 2 ≤ burst.ToBuffer.extent 2) :
    HDRPlus.process burst c g p =
      ([Event.cerr (Msg.blackPoint burst.GetBlackLevel),
        Event.cerr (Msg.whitePoint burst.GetWhiteLevel),
        Event.cerr (Msg.rggb burst.GetWhiteBalance),
        Event.hdrplus_pipeline],
       Except.ok (normalize_twostep (HDRPlus.pipelineOutput burst c g p))) := by
  have h : ¬ (burst.ToBuffer.dimensions ≠ 3 ∨ burst.ToBuffer.extent 2 < 2) := by
    rintro (h | h)
    · exact h hd
    · omega
  simp only [HDRPlus.process, if_neg h]
  rfl

/-- A burst that fails the check of line 43 makes `process` log three lines and throw. -/
theorem process_throw (burst : Burst) (c g : Scalar) (p : Pipeline)
    (h : burst.ToBuffer.dimensions ≠ 3 ∨ burst.ToBuffer.extent 2 < 2) :
    HDRPlus.process burst c g p =
      ([Event.cerr (Msg.blackPoint burst.GetBlackLevel),
        Event.cerr (Msg.whitePoint burst.GetWhiteLevel),
        Event.cerr (Msg.rggb burst.GetWhiteBalance)],
       Except.error (Exn.invalid_argument
        "The input of HDRPlus must be a 3-dimensional buffer with at least two channels.")) := by
  simp only [HDRPlus.process, if_pos h]

/-- C1: `process` throws exactly when the sensor buffer is not 3-dimensional or has fewer
than 2 frames along axis 2; what it throws is `std::invalid_argument`, and when it throws
the pipeline has not been called. In particular a burst with fewer than 2 frames is
rejected without a pipeline call. -/
theorem process_throws_iff_bad_burst (burst : Burst) (c g : Scalar) (p : Pipeline) :
    ((∃ e, (HDRPlus.process burst c g p).2 = Except.error e) ↔
        (burst.ToBuffer.dimensions ≠ 3 ∨ burst.ToBuffer.extent 2 < 2)) ∧
    (∀ e, (HDRPlus.process burst c g p).2 = Except.error e →
        (∃ what, e = Exn.invalid_argument what) ∧
        Event.hdrplus_pipeline ∉ (HDRPlus.process burst c g p).1) ∧
    (burst.ToBuffer.extent 2 < 2 →
        (∃ e, (HDRPlus.process burst c g p).2 = Except.error e) ∧
        Event.hdrplus_pipeline ∉ (HDRPlus.process burst c g p).1) := by
  by_cases h : burst.ToBuffer.dimensions ≠ 3 ∨ burst.ToBuffer.extent 2 < 2
  · rw [process_throw burst c g p h]
    simp [h]
  · have hd : burst.ToBuffer.dimensions = 3 := by
      by_contra hd; exact h (Or.inl hd)
    have hf : 2 ≤ burst.ToBuffer.extent 2 := by
      by_contra hf; exact h (Or.inr (by omega))
    rw [process_ok burst c g p hd hf]
    simp [h]
    omega

/-- Splitting a memory offset `k` of a dense `H` by `W` by 3 interleaved image into
channel `k % 3`, column `k / 3 % W` and row `k / (3 * W)`. -/
theorem interleaved_offset_decompose (W H k : Int) (hW : 1 ≤ W) (hk0 : 0 ≤ k)
    (hk : k < H * W * 3) :
    0 ≤ k % 3 ∧ k % 3 < 3 ∧ 0 ≤ k / 3 % W ∧ k / 3 % W < W ∧
    0 ≤ k / (3 * W) ∧ k / (3 * W) < H ∧
    (k / (3 * W) * W + k / 3 % W) * 3 + k % 3 = k := by
  have hWpos : 0 < W := by omega
  have hq0 : 0 ≤ k / 3 := by omega
  have hq : k / 3 < H * W := by
    have : k / 3 * 3 ≤ k := Int.ediv_mul_le k (by norm_num)
    nlinarith
  have hmod0 : 0 ≤ k / 3 % W := Int.emod_nonneg _ (by omega)
  have hmodlt : k / 3 % W < W := Int.emod_lt_of_pos _ hWpos
  have hdiv0 : 0 ≤ k / 3 / W := Int.ediv_nonneg hq0 (by omega)
  have hdivlt : k / 3 / W < H := Int.ediv_lt_of_lt_mul hWpos hq
  have hrec : W * (k / 3 / W) + k / 3 % W = k / 3 := Int.ediv_add_emod (k / 3) W
  have hk3 : 3 * (k / 3) + k % 3 = k := Int.ediv_add_emod k 3
  have h3 : k / (3 * W) = k / 3 / W := by
    have hu := (Int.ediv_emod_unique (a := k) (b := 3 * W) (r := 3 * (k / 3 % W) + k % 3)
      (q := k / 3 / W) (by omega)).mpr
    refine (hu ⟨?_, by omega, ?_⟩).1
    · linear_combination 3 * hrec + hk3
    · have hm3 : k % 3 < 3 := by omega
      linarith
  rw [h3]
  refine ⟨by omega, by omega, hmod0, hmodlt, hdiv0, hdivlt, ?_⟩
  linear_combination 3 * hrec + hk3

/-- A product that fits an `int` is not changed by the wrap. -/
theorem wrapInt32_exact (z : Int) (h0 : -2147483648 ≤ z) (h1 : z ≤ 2147483647) :
    wrapInt32 z = z := by
  unfold wrapInt32
  omega

/-- The axes of the buffer `process` returns when the row stride `3 * W` fits the 32-bit
stride field: `(W, 3)`, `(H, 3 * W)`, `(3, 1)` as (extent, stride). -/
theorem process_output_dim (burst : Burst) (c g : Scalar) (p : Pipeline)
    (hW : 1 ≤ burst.GetWidth) (hS : 3 * burst.GetWidth ≤ 2147483647) :
    (normalize_twostep (HDRPlus.pipelineOutput burst c g p)).dim =
      [⟨0, burst.GetWidth, 3⟩, ⟨0, burst.GetHeight, 3 * burst.GetWidth⟩, ⟨0, 3, 1⟩] := by
  have h3 : wrapInt32 (1 * 3) = 3 := by decide
  have hs : wrapInt32 (3 * burst.GetWidth) = 3 * burst.GetWidth :=
    wrapInt32_exact _ (by omega) hS
  show [(⟨0, burst.GetWidth, wrapInt32 (1 * 3)⟩ : halide_dimension_t),
      ⟨0, burst.GetHeight, wrapInt32 (wrapInt32 (1 * 3) * burst.GetWidth)⟩, ⟨0, 3, 1⟩] = _
  rw [h3, hs]

/-- C3 as stated fails for very wide bursts: for the 2-frame burst of width 715827883 and
height 2, which passes validation, the row stride `3 * 715827883 = 2147483649` does not
fit the 32-bit stride field of the buffer; in the buffer `process` returns, the element
`(0, 1, 0)` is at offset `-2147483647`, not at `(1 * 715827883 + 0) * 3 + 0`. -/
theorem process_row_stride_overflows :
    (1 ≤ (burstOf 715827883 2 2).GetWidth ∧ 1 ≤ (burstOf 715827883 2 2).GetHeight ∧
      (burstOf 715827883 2 2).ToBuffer.dimensions = 3 ∧
      2 ≤ (burstOf 715827883 2 2).ToBuffer.extent 2) ∧
    (HDRPlus.process (burstOf 715827883 2 2) (Scalar.lit "3.8f") (Scalar.lit "1.1f")
        pipeOffsets).2 =
      Except.ok (normalize_twostep (HDRPlus.pipelineOutput (burstOf 715827883 2 2)
        (Scalar.lit "3.8f") (Scalar.lit "1.1f") pipeOffsets)) ∧
    (normalize_twostep (HDRPlus.pipelineOutput (burstOf 715827883 2 2)
        (Scalar.lit "3.8f") (Scalar.lit "1.1f") pipeOffsets)).offsetOf [0, 1, 0] =
      -2147483647 ∧
    ((1 : Int) * (burstOf 715827883 2 2).GetWidth + 0) * 3 + 0 = 2147483649 := by
  refine ⟨⟨by decide, by decide, by decide, by decide⟩, ?_, by decide, by decide⟩
  exact congrArg Prod.snd (process_ok _ _ _ _ (by decide) (by decide))

/-- C3, amended: for a burst of width `W ≥ 1` whose row stride fits the 32-bit stride
field of a Halide buffer, `3 * W ≤ 2147483647`, and of any height `H` (in particular
`H ≥ 1`), that passes validation, `process` returns a buffer with `width() = W`,
`height() = H` and `channels() = 3`; its element at `(x, y, ch)` is the sample the
pipeline wrote for channel `ch` at pixel `(x, y)` and sits at offset
`(y * W + x) * 3 + ch` from `data()`; every offset `k` below `H * W * 3` holds channel
`k % 3` of column `k / 3 % W` of row `k / (3 * W)`, so memory order is R,G,B within a
pixel, pixels left to right, rows top to bottom; and `save_tiff` does not reject the
buffer: its first action is `TIFFOpen`. -/
theorem process_output_interleaved (burst : Burst) (c g : Scalar) (p : Pipeline)
    (hW : 1 ≤ burst.GetWidth) (hS : 3 * burst.GetWidth ≤ 2147483647)
    (hd : burst.ToBuffer.dimensions = 3) (hf : 2 ≤ burst.ToBuffer.extent 2) :
    ∃ out, (HDRPlus.process burst c g p).2 = Except.ok out ∧
      out.width = burst.GetWidth ∧ out.height = burst.GetHeight ∧ out.channels = 3 ∧
      (∀ x y ch : Int,
        out.get [x, y, ch] = (HDRPlus.pipelineOutput burst c g p).get [ch, x, y] ∧
        out.offsetOf [x, y, ch] = (y * burst.GetWidth + x) * 3 + ch) ∧
      (∀ k : Int, 0 ≤ k → k < burst.GetHeight * burst.GetWidth * 3 →
        0 ≤ k % 3 ∧ k % 3 < 3 ∧
        0 ≤ k / 3 % burst.GetWidth ∧ k / 3 % burst.GetWidth < burst.GetWidth ∧
        0 ≤ k / (3 * burst.GetWidth) ∧ k / (3 * burst.GetWidth) < burst.GetHeight ∧
        out.host k = out.get [k / 3 % burst.GetWidth, k / (3 * burst.GetWidth), k % 3]) ∧
      (∀ (lib : TiffLib) (dir_path img_name : String),
        (HDRPlus.save_tiff lib dir_path img_name out).1.head? =
          some (Event.TIFFOpen (dir_path ++ "/" ++ img_name) "w")) := by
  refine ⟨_, congrArg Prod.snd (process_ok burst c g p hd hf), ?_⟩
  have hdim := process_output_dim burst c g p hW hS
  have h3 : wrapInt32 (1 * 3) = 3 := by decide
  have hs : wrapInt32 (3 * burst.GetWidth) = 3 * burst.GetWidth :=
    wrapInt32_exact _ (by omega) hS
  have hplanar : (HDRPlus.pipelineOutput burst c g p).dim =
      [⟨0, 3, 1⟩, ⟨0, burst.GetWidth, 3⟩, ⟨0, burst.GetHeight, 3 * burst.GetWidth⟩] := by
    show [(⟨0, 3, 1⟩ : halide_dimension_t), ⟨0, burst.GetWidth, wrapInt32 (1 * 3)⟩,
      ⟨0, burst.GetHeight, wrapInt32 (wrapInt32 (1 * 3) * burst.GetWidth)⟩] = _
    rw [h3, hs]
  have hoff : ∀ x y ch : Int,
      (normalize_twostep (HDRPlus.pipelineOutput burst c g p)).offsetOf [x, y, ch] =
        (y * burst.GetWidth + x) * 3 + ch := by
    intro x y ch
    simp only [Buffer.offsetOf, hdim]
    simp
    ring
  have hch : (normalize_twostep (HDRPlus.pipelineOutput burst c g p)).channels = 3 := by
    simp [Buffer.channels, Buffer.dimensions, Buffer.extent, Buffer.dimAt, hdim]
  refine ⟨?_, ?_, hch, ?_, ?_, ?_⟩
  · simp [Buffer.width, Buffer.dimensions, Buffer.extent, Buffer.dimAt, hdim]
  · simp [Buffer.height, Buffer.dimensions, Buffer.extent, Buffer.dimAt, hdim]
  · intro x y ch
    refine ⟨?_, hoff x y ch⟩
    have hhost : (normalize_twostep (HDRPlus.pipelineOutput burst c g p)).host =
        (HDRPlus.pipelineOutput burst c g p).host := rfl
    simp only [Buffer.get, hoff, hhost]
    congr 1
    simp only [Buffer.offsetOf, hplanar]
    simp
    ring
  · intro k hk0 hk
    obtain ⟨h1, h2, h3, h4, h5, h6, h7⟩ :=
      interleaved_offset_decompose burst.GetWidth burst.GetHeight k hW hk0 hk
    refine ⟨h1, h2, h3, h4, h5, h6, ?_⟩
    simp only [Buffer.get, hoff, h7]
  · intro lib dir_path img_name
    simp only [HDRPlus.save_tiff, hch]
    cases lib.TIFFOpen (dir_path ++ "/" ++ img_name) "w" with
    | none => simp
    | some tif =>
      simp only [ne_eq, not_true_eq_false, if_false]
      split <;> simp

/-- Witness of the amended C3: a 2-frame burst of 2 by 2 pixels. -/
theorem process_output_interleaved_witness :
    (1 ≤ (burstOf 2 2 2).GetWidth ∧ 3 * (burstOf 2 2 2).GetWidth ≤ 2147483647 ∧
      (burstOf 2 2 2).ToBuffer.dimensions = 3 ∧
      2 ≤ (burstOf 2 2 2).ToBuffer.extent 2) ∧
    ∃ out, (HDRPlus.process (burstOf 2 2 2) (Scalar.lit "3.8f") (Scalar.lit "1.1f")
        pipeOffsets).2 = Except.ok out ∧
      out.width = (burstOf 2 2 2).GetWidth ∧ out.height = (burstOf 2 2 2).GetHeight ∧
      out.channels = 3 ∧
      (∀ x y ch : Int,
        out.get [x, y, ch] =
          (HDRPlus.pipelineOutput (burstOf 2 2 2) (Scalar.lit "3.8f") (Scalar.lit "1.1f")
            pipeOffsets).get [ch, x, y] ∧
        out.offsetOf [x, y, ch] = (y * (burstOf 2 2 2).GetWidth + x) * 3 + ch) ∧
      (∀ k : Int, 0 ≤ k → k < (burstOf 2 2 2).GetHeight * (burstOf 2 2 2).GetWidth * 3 →
        0 ≤ k % 3 ∧ k % 3 < 3 ∧
        0 ≤ k / 3 % (burstOf 2 2 2).GetWidth ∧
        k / 3 % (burstOf 2 2 2).GetWidth < (burstOf 2 2 2).GetWidth ∧
        0 ≤ k / (3 * (burstOf 2 2 2).GetWidth) ∧
        k / (3 * (burstOf 2 2 2).GetWidth) < (burstOf 2 2 2).GetHeight ∧
        out.host k = out.get [k / 3 % (burstOf 2 2 2).GetWidth,
          k / (3 * (burstOf 2 2 2).GetWidth), k % 3]) ∧
      (∀ (lib : TiffLib) (dir_path img_name : String),
        (HDRPlus.save_tiff lib dir_path img_name out).1.head? =
          some (Event.TIFFOpen (dir_path ++ "/" ++ img_name) "w")) :=
  ⟨⟨by decide, by decide, by decide, by decide⟩,
   process_output_interleaved (burstOf 2 2 2) (Scalar.lit "3.8f") (Scalar.lit "1.1f")
     pipeOffsets (by decide) (by decide) (by decide) (by decide)⟩

/-! ## The layout step -/

/-- On a 3-dimensional buffer the two transposes are the permutation that moves axis 0
behind the other two. -/
theorem normalize_twostep_dim (b : Buffer) (h : b.dimensions = 3) :
    normalize_twostep b = permute_xyc b := by
  obtain ⟨dim, host⟩ := b
  match dim, h with
  | [d0, d1, d2], _ => rfl

/-- C4 as stated fails: on the 3-channel buffer of width 2 and height 1 the two
transposes do not give the axes of the permutation `(channel, x, y) → (y, x, channel)`. -/
theorem normalize_twostep_ne_normalize_direct :
    ¬ ∀ b : Buffer, b.dimensions = 3 → b.extent 0 = 3 → 1 ≤ b.extent 1 → 1 ≤ b.extent 2 →
        (normalize_twostep b).dim = (normalize_direct b).dim := by
  intro h
  have h1 := h (Buffer.alloc3 3 2 1) (by decide) (by decide) (by decide) (by decide)
  revert h1
  decide

/-- C4, amended: for every 3-dimensional buffer (in particular one with 3 channels and
positive width and height) the two transposes of `process` produce the same axes, extents
and strides, over the same memory, as the single permutation
`(channel, x, y) → (x, y, channel)`; the element at `(x, y, ch)` of the result is the
element at `(ch, x, y)` of the argument. -/
theorem normalize_twostep_eq_permute_xyc (b : Buffer) (h : b.dimensions = 3) :
    normalize_twostep b = permute_xyc b ∧
    (permute_xyc b).dim = [b.dimAt 1, b.dimAt 2, b.dimAt 0] ∧
    (normalize_twostep b).host = b.host ∧
    ∀ x y ch : Int, (normalize_twostep b).get [x, y, ch] = b.get [ch, x, y] := by
  refine ⟨normalize_twostep_dim b h, rfl, rfl, ?_⟩
  intro x y ch
  rw [normalize_twostep_dim b h]
  obtain ⟨dim, host⟩ := b
  match dim, h with
  | [d0, d1, d2], _ =>
    simp [permute_xyc, Buffer.get, Buffer.offsetOf, Buffer.dimAt]
    congr 1
    ring

/-- Witness of the amended C4: the planar allocation of a 2 by 1 image. -/
theorem normalize_twostep_eq_permute_xyc_witness :
    (Buffer.alloc3 3 2 1).dimensions = 3 ∧
    (normalize_twostep (Buffer.alloc3 3 2 1) = permute_xyc (Buffer.alloc3 3 2 1) ∧
     (permute_xyc (Buffer.alloc3 3 2 1)).dim =
       [(Buffer.alloc3 3 2 1).dimAt 1, (Buffer.alloc3 3 2 1).dimAt 2,
        (Buffer.alloc3 3 2 1).dimAt 0] ∧
     (normalize_twostep (Buffer.alloc3 3 2 1)).host = (Buffer.alloc3 3 2 1).host ∧
     ∀ x y ch : Int, (normalize_twostep (Buffer.alloc3 3 2 1)).get [x, y, ch] =
       (Buffer.alloc3 3 2 1).get [ch, x, y]) :=
  ⟨by decide, normalize_twostep_eq_permute_xyc (Buffer.alloc3 3 2 1) (by decide)⟩

/-- C8 as stated fails: the burst of width 0 passes through `process` without any
exception although the buffer handed to the two transposes has a width below 1, and the
two transposes applied to a 4-channel buffer produce a (4-channel) result. -/
theorem layout_step_does_not_validate :
    (¬ ∀ (burst : Burst) (c g : Scalar) (p : Pipeline),
        burst.ToBuffer.dimensions = 3 → 2 ≤ burst.ToBuffer.extent 2 →
        ((HDRPlus.pipelineOutput burst c g p).extent 0 ≠ 3 ∨
          (HDRPlus.pipelineOutput burst c g p).extent 1 < 1 ∨
          (HDRPlus.pipelineOutput burst c g p).extent 2 < 1) →
        ∃ e, (HDRPlus.process burst c g p).2 = Except.error e) ∧
    (normalize_twostep (Buffer.alloc3 4 2 2)).dim = [⟨0, 2, 4⟩, ⟨0, 2, 8⟩, ⟨0, 4, 1⟩] := by
  refine ⟨?_, by decide⟩
  intro h
  obtain ⟨e, he⟩ := h (burstOf 0 1 2) (Scalar.lit "3.8f") (Scalar.lit "1.1f") pipeOffsets
    (by decide) (by decide) (Or.inr (Or.inl (by decide)))
  rw [process_ok _ _ _ _ (by decide) (by decide)] at he
  cases he

/-- C8, amended: the layout step of `process` validates nothing and cannot fail. For
every burst that passes the check of line 43, whatever its width and height (also below
1), `process` returns the two transposes of the pipeline output and throws nothing; the
buffer handed to the transposes was allocated with extent 3 along axis 0, so its channel
count is always 3. -/
theorem layout_step_never_raises (burst : Burst) (c g : Scalar) (p : Pipeline)
    (hd : burst.ToBuffer.dimensions = 3) (hf : 2 ≤ burst.ToBuffer.extent 2) :
    (HDRPlus.pipelineOutput burst c g p).extent 0 = 3 ∧
    (HDRPlus.process burst c g p).2 =
      Except.ok (normalize_twostep (HDRPlus.pipelineOutput burst c g p)) ∧
    ∀ e, (HDRPlus.process burst c g p).2 ≠ Except.error e := by
  refine ⟨rfl, congrArg Prod.snd (process_ok burst c g p hd hf), ?_⟩
  intro e he
  rw [process_ok burst c g p hd hf] at he
  cases he

/-- Witness of the amended C8: a 2-frame burst of width 0 and height 1. -/
theorem layout_step_never_raises_witness :
    ((burstOf 0 1 2).ToBuffer.dimensions = 3 ∧ 2 ≤ (burstOf 0 1 2).ToBuffer.extent 2) ∧
    ((HDRPlus.pipelineOutput (burstOf 0 1 2) (Scalar.lit "3.8f") (Scalar.lit "1.1f")
        pipeOffsets).extent 0 = 3 ∧
     (HDRPlus.process (burstOf 0 1 2) (Scalar.lit "3.8f") (Scalar.lit "1.1f")
        pipeOffsets).2 =
      Except.ok (normalize_twostep (HDRPlus.pipelineOutput (burstOf 0 1 2)
        (Scalar.lit "3.8f") (Scalar.lit "1.1f") pipeOffsets)) ∧
     ∀ e, (HDRPlus.process (burstOf 0 1 2) (Scalar.lit "3.8f") (Scalar.lit "1.1f")
        pipeOffsets).2 ≠ Except.error e) :=
  ⟨⟨by decide, by decide⟩,
   layout_step_never_raises (burstOf 0 1 2) (Scalar.lit "3.8f") (Scalar.lit "1.1f")
     pipeOffsets (by decide) (by decide)⟩

/-! ## `save_tiff` -/

/-- The scanline loop, entered at row `y` with `n` rows left, either writes all `n` rows
`y, y + 1, ...` in this order, every write succeeding, and runs to its end; or there is a
first failing row `y + f`: the rows `y .. y + f` are attempted in this order, the
diagnostic is printed, the handle is closed and the function is left with `false`. -/
theorem scanlineLoop_spec (lib : TiffLib) (tif : Handle) (path : String) (W H C : Int)
    (n : Nat) : ∀ y : Int, (H - y).toNat = n →
    (HDRPlus.scanlineLoop lib tif path W H C y =
        ((List.range n).map (fun j : Nat =>
          Event.TIFFWriteScanline tif (HDRPlus.rowOffset W C (y + j)) (y + j) 0), true) ∧
      ∀ j : Nat, j < n →
        ¬ lib.TIFFWriteScanline tif (HDRPlus.rowOffset W C (y + j)) (y + j) 0 < 0) ∨
    (∃ f : Nat, f < n ∧
      (∀ j : Nat, j < f →
        ¬ lib.TIFFWriteScanline tif (HDRPlus.rowOffset W C (y + j)) (y + j) 0 < 0) ∧
      lib.TIFFWriteScanline tif (HDRPlus.rowOffset W C (y + f)) (y + f) 0 < 0 ∧
      HDRPlus.scanlineLoop lib tif path W H C y =
        ((List.range (f + 1)).map (fun j : Nat =>
            Event.TIFFWriteScanline tif (HDRPlus.rowOffset W C (y + j)) (y + j) 0) ++
          [Event.cerr (Msg.scanlineError (y + f) path), Event.TIFFClose tif], false)) := by
  induction n with
  | zero =>
    intro y hn
    left
    have hlt : ¬ y < H := by omega
    rw [HDRPlus.scanlineLoop]
    simp [hlt]
  | succ n ih =>
    intro y hn
    have hlt : y < H := by omega
    rw [HDRPlus.scanlineLoop]
    simp only [hlt, if_true]
    by_cases hw : lib.TIFFWriteScanline tif (HDRPlus.rowOffset W C y) y 0 < 0
    · right
      refine ⟨0, by omega, by intro j hj; omega, by simpa using hw, ?_⟩
      simp [hw, List.range_succ_eq_map]
    · simp only [hw, if_false]
      have hshift : ∀ j : Nat, y + 1 + (j : Int) = y + ((j + 1 : Nat) : Int) := by
        intro j; push_cast; ring
      rcases ih (y + 1) (by omega) with ⟨heq, hall⟩ | ⟨f, hf, hall, hfail, heq⟩
      · left
        constructor
        · rw [heq, List.range_succ_eq_map]
          simp only [List.map_cons, List.map_map, Nat.cast_zero, add_zero]
          congr 2
          apply List.map_congr_left
          intro j _
          simp only [Function.comp, hshift]
        · intro j hj
          cases j with
          | zero => simpa using hw
          | succ j =>
            have := hall j (by omega)
            rwa [hshift] at this
      · right
        refine ⟨f + 1, by omega, ?_, ?_, ?_⟩
        · intro j hj
          cases j with
          | zero => simpa using hw
          | succ j =>
            have := hall j (by omega)
            rwa [hshift] at this
        · rwa [hshift] at hfail
        · rw [heq, List.range_succ_eq_map (f + 1)]
          simp only [List.map_cons, List.map_map, Nat.cast_zero, add_zero, List.cons_append]
          rw [hshift]
          congr 3
          apply List.map_congr_left
          intro j _
          simp only [Function.comp, hshift]

/-- The shape of every run of `save_tiff` that gets a handle: the open, the tag set-up,
then either all `height` rows in order and the close, with result `true`, or the rows up
to the first failing one, the diagnostic and the close, with result `false`. -/
theorem save_tiff_opened (lib : TiffLib) (dir_path img_name : String) (img : Buffer)
    (tif : Handle) (hc : img.channels = 3)
    (ho : lib.TIFFOpen (dir_path ++ "/" ++ img_name) "w" = some tif) :
    (HDRPlus.save_tiff lib dir_path img_name img =
        (Event.TIFFOpen (dir_path ++ "/" ++ img_name) "w" ::
          HDRPlus.tagSetup lib tif img.width img.height 3 ++
          (List.range img.height.toNat).map (fun j : Nat =>
            Event.TIFFWriteScanline tif (HDRPlus.rowOffset img.width 3 j) j 0) ++
          [Event.TIFFClose tif], true) ∧
      ∀ j : Nat, j < img.height.toNat →
        ¬ lib.TIFFWriteScanline tif (HDRPlus.rowOffset img.width 3 j) j 0 < 0) ∨
    (∃ f : Nat, f < img.height.toNat ∧
      (∀ j : Nat, j < f →
        ¬ lib.TIFFWriteScanline tif (HDRPlus.rowOffset img.width 3 j) j 0 < 0) ∧
      lib.TIFFWriteScanline tif (HDRPlus.rowOffset img.width 3 f) f 0 < 0 ∧
      HDRPlus.save_tiff lib dir_path img_name img =
        (Event.TIFFOpen (dir_path ++ "/" ++ img_name) "w" ::
          HDRPlus.tagSetup lib tif img.width img.height 3 ++
          (List.range (f + 1)).map (fun j : Nat =>
            Event.TIFFWriteScanline tif (HDRPlus.rowOffset img.width 3 j) j 0) ++
          [Event.cerr (Msg.scanlineError f (dir_path ++ "/" ++ img_name)),
           Event.TIFFClose tif], false)) := by
  have hloop := scanlineLoop_spec lib tif (dir_path ++ "/" ++ img_name) img.width
    img.height 3 img.height.toNat 0 (by simp)
  simp only [zero_add] at hloop
  rcases hloop with ⟨heq, hall⟩ | ⟨f, hf, hall, hfail, heq⟩
  · left
    refine ⟨?_, hall⟩
    simp [HDRPlus.save_tiff, hc, ho, heq]
  · right
    refine ⟨f, hf, hall, hfail, ?_⟩
    simp [HDRPlus.save_tiff, hc, ho, heq]

/-- With a channel count other than 3, `save_tiff` only prints its diagnostic and
returns `false`. -/
theorem save_tiff_not_rgb (lib : TiffLib) (dir_path img_name : String) (img : Buffer)
    (hc : img.channels ≠ 3) :
    HDRPlus.save_tiff lib dir_path img_name img = ([Event.cerr Msg.notThreeChannels], false) := by
  simp [HDRPlus.save_tiff, hc]

/-- C2: when the channel count of the image is not 3, `save_tiff` prints its diagnostic,
returns `false` and performs no libtiff call at all: no `TIFFOpen` (so no file is
created), no `TIFFSetField`, no `TIFFWriteScanline`. -/
theorem save_tiff_rejects_channel_count (lib : TiffLib) (dir_path img_name : String)
    (img : Buffer) (hc : img.channels ≠ 3) :
    HDRPlus.save_tiff lib dir_path img_name img = ([Event.cerr Msg.notThreeChannels], false) ∧
    ∀ e ∈ (HDRPlus.save_tiff lib dir_path img_name img).1, e.isFileOp = false := by
  refine ⟨save_tiff_not_rgb lib dir_path img_name img hc, ?_⟩
  rw [save_tiff_not_rgb lib dir_path img_name img hc]
  intro e he
  simp only [List.mem_singleton] at he
  subst he
  rfl

/-- Witness of C2: a 4-channel image. -/
theorem save_tiff_rejects_channel_count_witness :
    (Buffer.alloc3 2 2 4).channels ≠ 3 ∧
    (HDRPlus.save_tiff libOk "out" "img.tiff" (Buffer.alloc3 2 2 4) =
        ([Event.cerr Msg.notThreeChannels], false) ∧
      ∀ e ∈ (HDRPlus.save_tiff libOk "out" "img.tiff" (Buffer.alloc3 2 2 4)).1,
        e.isFileOp = false) :=
  ⟨by decide, save_tiff_rejects_channel_count libOk "out" "img.tiff" (Buffer.alloc3 2 2 4)
    (by decide)⟩

/-- No event of the tag set-up is a close or a scanline write. -/
theorem tagSetup_no_close_no_write (lib : TiffLib) (tif : Handle) (W H C : Int) :
    ∀ e ∈ HDRPlus.tagSetup lib tif W H C, e.isClose = false ∧ e.isWrite = false := by
  intro e he
  simp only [HDRPlus.tagSetup, List.mem_cons, List.mem_singleton, List.not_mem_nil,
    or_false] at he
  rcases he with h | h | h | h | h | h | h | h | h <;> subst h <;> exact ⟨rfl, rfl⟩

/-- C6: on every run of `save_tiff`, whatever libtiff does: if `TIFFOpen` is called and
returns a handle, the trace is the open, then events none of which is a close, then one
`TIFFClose` of that handle as the very last event (so the handle is closed exactly once
before the return and no tag is set and no scanline written after the close); if
`TIFFOpen` is not called (channel count not 3) or fails, no tag is set, no scanline is
written and nothing is closed, and the result is `false`. -/
theorem save_tiff_closes_handle_once (lib : TiffLib) (dir_path img_name : String)
    (img : Buffer) :
    (∀ tif, img.channels = 3 → lib.TIFFOpen (dir_path ++ "/" ++ img_name) "w" = some tif →
      ∃ mid, (HDRPlus.save_tiff lib dir_path img_name img).1 =
          Event.TIFFOpen (dir_path ++ "/" ++ img_name) "w" :: mid ++ [Event.TIFFClose tif] ∧
        ∀ e ∈ mid, e.isClose = false) ∧
    (img.channels ≠ 3 →
      (∀ e ∈ (HDRPlus.save_tiff lib dir_path img_name img).1, e.isFileOp = false) ∧
      (HDRPlus.save_tiff lib dir_path img_name img).2 = false) ∧
    (img.channels = 3 → lib.TIFFOpen (dir_path ++ "/" ++ img_name) "w" = none →
      (∀ e ∈ (HDRPlus.save_tiff lib dir_path img_name img).1,
        e.isSetField = false ∧ e.isWrite = false ∧ e.isClose = false) ∧
      (HDRPlus.save_tiff lib dir_path img_name img).2 = false) := by
  refine ⟨?_, ?_, ?_⟩
  · intro tif hc ho
    rcases save_tiff_opened lib dir_path img_name img tif hc ho with
      ⟨heq, _⟩ | ⟨f, _, _, _, heq⟩
    · refine ⟨HDRPlus.tagSetup lib tif img.width img.height 3 ++
        (List.range img.height.toNat).map (fun j : Nat =>
          Event.TIFFWriteScanline tif (HDRPlus.rowOffset img.width 3 j) j 0), ?_, ?_⟩
      · rw [heq]; simp
      · intro e he
        rcases List.mem_append.mp he with h | h
        · exact (tagSetup_no_close_no_write lib tif _ _ _ e h).1
        · obtain ⟨j, _, rfl⟩ := List.mem_map.mp h
          rfl
    · refine ⟨HDRPlus.tagSetup lib tif img.width img.height 3 ++
        (List.range (f + 1)).map (fun j : Nat =>
          Event.TIFFWriteScanline tif (HDRPlus.rowOffset img.width 3 j) j 0) ++
        [Event.cerr (Msg.scanlineError f (dir_path ++ "/" ++ img_name))], ?_, ?_⟩
      · rw [heq]; simp
      · intro e he
        rcases List.mem_append.mp he with h | h
        · rcases List.mem_append.mp h with h | h
          · exact (tagSetup_no_close_no_write lib tif _ _ _ e h).1
          · obtain ⟨j, _, rfl⟩ := List.mem_map.mp h
            rfl
        · simp only [List.mem_singleton] at h
          subst h
          rfl
  · intro hc
    rw [save_tiff_not_rgb lib dir_path img_name img hc]
    refine ⟨?_, rfl⟩
    intro e he
    simp only [List.mem_singleton] at he
    subst he
    rfl
  · intro hc ho
    have h : HDRPlus.save_tiff lib dir_path img_name img =
        ([Event.TIFFOpen (dir_path ++ "/" ++ img_name) "w",
          Event.cerr (Msg.couldNotOpen (dir_path ++ "/" ++ img_name))], false) := by
      simp [HDRPlus.save_tiff, hc, ho]
    rw [h]
    refine ⟨?_, rfl⟩
    intro e he
    simp only [List.mem_cons, List.mem_singleton, List.not_mem_nil, or_false] at he
    rcases he with h | h <;> subst h <;> exact ⟨rfl, rfl, rfl⟩

/-- Passing the wrapped `int` product to a `uint32_t` parameter yields the product
modulo `2 ^ 32`. -/
theorem toUInt32_wrapInt32 (z : Int) : toUInt32 (wrapInt32 z) = (z % 4294967296).toNat := by
  unfold toUInt32 wrapInt32
  congr 1
  omega

/-- C7 as stated fails: for the 3-channel image of width 1431655766 and height 1 the
strip size is requested for a row of 2 bytes, not of `1431655766 * 3` bytes. -/
theorem save_tiff_strip_request_wraps :
    (planarImage 1431655766 1).channels = 3 ∧ (planarImage 1431655766 1).width = 1431655766 ∧
    (HDRPlus.save_tiff libOk "out" "img.tiff" (planarImage 1431655766 1)).1 =
      [Event.TIFFOpen "out/img.tiff" "w",
       Event.TIFFSetField 7 Tag.IMAGEWIDTH (TagValue.int 1431655766),
       Event.TIFFSetField 7 Tag.IMAGELENGTH (TagValue.int 1),
       Event.TIFFSetField 7 Tag.SAMPLESPERPIXEL (TagValue.int 3),
       Event.TIFFSetField 7 Tag.BITSPERSAMPLE (TagValue.int 8),
       Event.TIFFSetField 7 Tag.ORIENTATION TagValue.ORIENTATION_TOPLEFT,
       Event.TIFFSetField 7 Tag.PLANARCONFIG TagValue.PLANARCONFIG_CONTIG,
       Event.TIFFSetField 7 Tag.PHOTOMETRIC TagValue.PHOTOMETRIC_RGB,
       Event.TIFFDefaultStripSize 7 2,
       Event.TIFFSetField 7 Tag.ROWSPERSTRIP (TagValue.uint32 (libOk.TIFFDefaultStripSize 7 2)),
       Event.TIFFWriteScanline 7 0 0 0,
       Event.TIFFClose 7] ∧
    libOk.TIFFDefaultStripSize 7 2 ≠ libOk.TIFFDefaultStripSize 7 (1431655766 * 3) := by
  refine ⟨by decide, by decide, ?_, by decide⟩
  have hc : (planarImage 1431655766 1).channels = 3 := by decide
  have hw : (planarImage 1431655766 1).width = 1431655766 := by decide
  have hh : (planarImage 1431655766 1).height = 1 := by decide
  simp [HDRPlus.save_tiff, HDRPlus.scanlineLoop, HDRPlus.tagSetup, HDRPlus.rowOffset, hc, hw, hh,
    libOk, toUInt32, wrapInt32]

/-- C7, amended: for every 3-channel image of width `W` and height `H` for which the file
opens, `save_tiff` sets, right after the open and before any scanline write, exactly the
fields image width `W`, image length `H`, samples-per-pixel 3, bits-per-sample 8,
orientation top-left, planar configuration contiguous, photometric RGB and rows-per-strip,
the last being the default strip size of the library requested for `W * 3` modulo `2 ^ 32`
bytes, which is `W * 3` bytes whenever `0 ≤ W * 3 < 2 ^ 32`; no field is set later. -/
theorem save_tiff_tags_before_rows (lib : TiffLib) (dir_path img_name : String)
    (img : Buffer) (tif : Handle) (hc : img.channels = 3)
    (ho : lib.TIFFOpen (dir_path ++ "/" ++ img_name) "w" = some tif) :
    (∃ rest, (HDRPlus.save_tiff lib dir_path img_name img).1 =
        [Event.TIFFOpen (dir_path ++ "/" ++ img_name) "w",
         Event.TIFFSetField tif Tag.IMAGEWIDTH (TagValue.int img.width),
         Event.TIFFSetField tif Tag.IMAGELENGTH (TagValue.int img.height),
         Event.TIFFSetField tif Tag.SAMPLESPERPIXEL (TagValue.int 3),
         Event.TIFFSetField tif Tag.BITSPERSAMPLE (TagValue.int 8),
         Event.TIFFSetField tif Tag.ORIENTATION TagValue.ORIENTATION_TOPLEFT,
         Event.TIFFSetField tif Tag.PLANARCONFIG TagValue.PLANARCONFIG_CONTIG,
         Event.TIFFSetField tif Tag.PHOTOMETRIC TagValue.PHOTOMETRIC_RGB,
         Event.TIFFDefaultStripSize tif (img.width * 3 % 4294967296).toNat,
         Event.TIFFSetField tif Tag.ROWSPERSTRIP
           (TagValue.uint32
             (lib.TIFFDefaultStripSize tif (img.width * 3 % 4294967296).toNat))] ++ rest ∧
      ∀ e ∈ rest, e.isSetField = false) ∧
    (0 ≤ img.width * 3 → img.width * 3 < 4294967296 →
      img.width * 3 % 4294967296 = img.width * 3) := by
  refine ⟨?_, fun h0 h1 => Int.emod_eq_of_lt h0 h1⟩
  have hsetup : HDRPlus.tagSetup lib tif img.width img.height 3 =
      [Event.TIFFSetField tif Tag.IMAGEWIDTH (TagValue.int img.width),
       Event.TIFFSetField tif Tag.IMAGELENGTH (TagValue.int img.height),
       Event.TIFFSetField tif Tag.SAMPLESPERPIXEL (TagValue.int 3),
       Event.TIFFSetField tif Tag.BITSPERSAMPLE (TagValue.int 8),
       Event.TIFFSetField tif Tag.ORIENTATION TagValue.ORIENTATION_TOPLEFT,
       Event.TIFFSetField tif Tag.PLANARCONFIG TagValue.PLANARCONFIG_CONTIG,
       Event.TIFFSetField tif Tag.PHOTOMETRIC TagValue.PHOTOMETRIC_RGB,
       Event.TIFFDefaultStripSize tif (img.width * 3 % 4294967296).toNat,
       Event.TIFFSetField tif Tag.ROWSPERSTRIP
         (TagValue.uint32
           (lib.TIFFDefaultStripSize tif (img.width * 3 % 4294967296).toNat))] := by
    simp only [HDRPlus.tagSetup, toUInt32_wrapInt32]
  rcases save_tiff_opened lib dir_path img_name img tif hc ho with
    ⟨heq, _⟩ | ⟨f, _, _, _, heq⟩
  · refine ⟨(List.range img.height.toNat).map (fun j : Nat =>
        Event.TIFFWriteScanline tif (HDRPlus.rowOffset img.width 3 j) j 0) ++
        [Event.TIFFClose tif], ?_, ?_⟩
    · rw [heq, hsetup]; simp
    · intro e he
      rcases List.mem_append.mp he with h | h
      · obtain ⟨j, _, rfl⟩ := List.mem_map.mp h
        rfl
      · simp only [List.mem_singleton] at h
        subst h
        rfl
  · refine ⟨(List.range (f + 1)).map (fun j : Nat =>
        Event.TIFFWriteScanline tif (HDRPlus.rowOffset img.width 3 j) j 0) ++
        [Event.cerr (Msg.scanlineError f (dir_path ++ "/" ++ img_name)),
         Event.TIFFClose tif], ?_, ?_⟩
    · rw [heq, hsetup]; simp
    · intro e he
      rcases List.mem_append.mp he with h | h
      · obtain ⟨j, _, rfl⟩ := List.mem_map.mp h
        rfl
      · simp only [List.mem_cons, List.mem_singleton, List.not_mem_nil, or_false] at h
        rcases h with h | h <;> subst h <;> rfl

/-- Witness of the amended C7: an interleaved 2 by 2 image and a libtiff that succeeds. -/
theorem save_tiff_tags_before_rows_witness :
    ((interleavedImage 2 2).channels = 3 ∧
      libOk.TIFFOpen ("out" ++ "/" ++ "img.tiff") "w" = some 7) ∧
    ((∃ rest, (HDRPlus.save_tiff libOk "out" "img.tiff" (interleavedImage 2 2)).1 =
        [Event.TIFFOpen ("out" ++ "/" ++ "img.tiff") "w",
         Event.TIFFSetField 7 Tag.IMAGEWIDTH (TagValue.int (interleavedImage 2 2).width),
         Event.TIFFSetField 7 Tag.IMAGELENGTH (TagValue.int (interleavedImage 2 2).height),
         Event.TIFFSetField 7 Tag.SAMPLESPERPIXEL (TagValue.int 3),
         Event.TIFFSetField 7 Tag.BITSPERSAMPLE (TagValue.int 8),
         Event.TIFFSetField 7 Tag.ORIENTATION TagValue.ORIENTATION_TOPLEFT,
         Event.TIFFSetField 7 Tag.PLANARCONFIG TagValue.PLANARCONFIG_CONTIG,
         Event.TIFFSetField 7 Tag.PHOTOMETRIC TagValue.PHOTOMETRIC_RGB,
         Event.TIFFDefaultStripSize 7 ((interleavedImage 2 2).width * 3 % 4294967296).toNat,
         Event.TIFFSetField 7 Tag.ROWSPERSTRIP
           (TagValue.uint32 (libOk.TIFFDefaultStripSize 7
             ((interleavedImage 2 2).width * 3 % 4294967296).toNat))] ++ rest ∧
      ∀ e ∈ rest, e.isSetField = false) ∧
     (0 ≤ (interleavedImage 2 2).width * 3 → (interleavedImage 2 2).width * 3 < 4294967296 →
      (interleavedImage 2 2).width * 3 % 4294967296 = (interleavedImage 2 2).width * 3)) :=
  ⟨⟨by decide, rfl⟩,
   save_tiff_tags_before_rows libOk "out" "img.tiff" (interleavedImage 2 2) 7 (by decide) rfl⟩

/-- The `int` expression `y * width * 3` has its mathematical value when that value is
representable, that is when `0 ≤ y * width` and `y * width * 3 ≤ 2147483647`. -/
theorem rowOffset_exact (W y : Int) (h0 : 0 ≤ y * W) (h : y * W * 3 ≤ 2147483647) :
    HDRPlus.rowOffset W 3 y = y * W * 3 := by
  unfold HDRPlus.rowOffset wrapInt32
  omega

/-- Reading `m` consecutive blocks of `n` elements is reading the first `m * n`
elements. -/
theorem flatMap_range_blocks {α : Type} (f : Nat → α) (n m : Nat) :
    (List.range m).flatMap (fun j => (List.range n).map (fun i => f (j * n + i))) =
      (List.range (m * n)).map f := by
  induction m with
  | zero => simp
  | succ m ih =>
    rw [List.range_succ, List.flatMap_append, ih, List.flatMap_singleton, Nat.succ_mul,
      List.range_add, List.map_append, List.map_map]
    rfl

/-- The bytes emitted by a trace that is made of an open, the tag set-up, the writes of
rows `0 .. m - 1` at offsets `j * n` and a close are the first `m * n` bytes of the
image. -/
theorem emittedBytes_rows (img : Buffer) (lib : TiffLib) (tif : Handle) (path : String)
    (W H C : Int) (n m : Nat) :
    emittedBytes img n
      (Event.TIFFOpen path "w" :: HDRPlus.tagSetup lib tif W H C ++
        (List.range m).map (fun j : Nat =>
          Event.TIFFWriteScanline tif ((j : Int) * (n : Int)) j 0) ++
        [Event.TIFFClose tif]) =
      (List.range (m * n)).map (fun k : Nat => img.host k) := by
  rw [← flatMap_range_blocks (fun k : Nat => img.host k) n m]
  simp only [emittedBytes, HDRPlus.tagSetup, List.flatMap_cons, List.flatMap_append,
    List.flatMap_nil, List.nil_append, List.append_nil, List.cons_append, List.flatMap_map,
    scanlineBytes]
  congr 1

/-- C5 fails on a large image: for the interleaved RGB image of 30000 by 30000 pixels
(every write succeeding) the call for row 23861 passes the offset `-2147477296`, whereas
the row starts at offset `23861 * 30000 * 3 = 2147490000`. -/
theorem save_tiff_row_offset_overflows :
    (interleavedImage 30000 30000).channels = 3 ∧
    (interleavedImage 30000 30000).width = 30000 ∧
    (interleavedImage 30000 30000).height = 30000 ∧
    Event.TIFFWriteScanline 7 (-2147477296) 23861 0 ∈
      (HDRPlus.save_tiff libOk "out" "img.tiff" (interleavedImage 30000 30000)).1 ∧
    Event.TIFFWriteScanline 7 (23861 * 30000 * 3) 23861 0 ∉
      (HDRPlus.save_tiff libOk "out" "img.tiff" (interleavedImage 30000 30000)).1 := by
  have hc : (interleavedImage 30000 30000).channels = 3 := by decide
  have hw : (interleavedImage 30000 30000).width = 30000 := by decide
  have hh : (interleavedImage 30000 30000).height = 30000 := by decide
  refine ⟨hc, hw, hh, ?_⟩
  rcases save_tiff_opened libOk "out" "img.tiff" (interleavedImage 30000 30000) 7 hc rfl with
    ⟨heq, _⟩ | ⟨f, _, _, hfail, _⟩
  · rw [heq, hw, hh]
    constructor
    · apply List.mem_append_left
      apply List.mem_cons_of_mem
      apply List.mem_append_right
      refine List.mem_map.mpr ⟨23861, List.mem_range.mpr (by decide), ?_⟩
      have : HDRPlus.rowOffset 30000 3 ((23861 : Nat) : Int) = -2147477296 := by decide
      rw [this]
      rfl
    · intro hmem
      simp only [HDRPlus.tagSetup, List.mem_cons, List.mem_append, List.mem_map,
        List.mem_range, List.mem_singleton, List.not_mem_nil, or_false, false_or,
        reduceCtorEq, Event.TIFFWriteScanline.injEq] at hmem
      obtain ⟨j, _, _, hoff, hj, _⟩ := hmem
      have hj2 : j = 23861 := by exact_mod_cast hj
      subst hj2
      revert hoff
      decide
  · exfalso
    revert hfail
    simp [libOk]

/-- The scanline order of `save_tiff` on images whose byte size fits an `int`: for a
3-channel image of width `W ≥ 0` and height `H` with `H * W * 3 ≤ 2147483647` for which
the file opens, the writes are attempted for rows `0, 1, 2, ...` in this order, row `y`
with the offset `y * W * 3` and the row index `y`; either all `H` writes succeed, the
result is `true` and the emitted rows are the first `H * W * 3` bytes of the image in
memory order, or the trace stops at the first failing row (diagnostic, close) and the
result is `false`; the result is `true` exactly when no write of rows `0 .. H - 1`
fails. -/
theorem save_tiff_rows_in_order (lib : TiffLib) (dir_path img_name : String) (img : Buffer)
    (tif : Handle) (hc : img.channels = 3)
    (ho : lib.TIFFOpen (dir_path ++ "/" ++ img_name) "w" = some tif)
    (hW : 0 ≤ img.width) (hsize : img.height * img.width * 3 ≤ 2147483647) :
    ((HDRPlus.save_tiff lib dir_path img_name img =
          (Event.TIFFOpen (dir_path ++ "/" ++ img_name) "w" ::
            HDRPlus.tagSetup lib tif img.width img.height 3 ++
            (List.range img.height.toNat).map (fun j : Nat =>
              Event.TIFFWriteScanline tif ((j : Int) * img.width * 3) j 0) ++
            [Event.TIFFClose tif], true) ∧
        emittedBytes img (img.width * 3).toNat
            (HDRPlus.save_tiff lib dir_path img_name img).1 =
          (List.range (img.height.toNat * (img.width * 3).toNat)).map
            (fun k : Nat => img.host k)) ∨
      (∃ f : Nat, f < img.height.toNat ∧
        (∀ j : Nat, j < f →
          ¬ lib.TIFFWriteScanline tif ((j : Int) * img.width * 3) j 0 < 0) ∧
        lib.TIFFWriteScanline tif ((f : Int) * img.width * 3) f 0 < 0 ∧
        HDRPlus.save_tiff lib dir_path img_name img =
          (Event.TIFFOpen (dir_path ++ "/" ++ img_name) "w" ::
            HDRPlus.tagSetup lib tif img.width img.height 3 ++
            (List.range (f + 1)).map (fun j : Nat =>
              Event.TIFFWriteScanline tif ((j : Int) * img.width * 3) j 0) ++
            [Event.cerr (Msg.scanlineError f (dir_path ++ "/" ++ img_name)),
             Event.TIFFClose tif], false))) ∧
    ((HDRPlus.save_tiff lib dir_path img_name img).2 = true ↔
      ∀ j : Nat, j < img.height.toNat →
        ¬ lib.TIFFWriteScanline tif ((j : Int) * img.width * 3) j 0 < 0) := by
  have hoff : ∀ j : Nat, j < img.height.toNat →
      HDRPlus.rowOffset img.width 3 j = (j : Int) * img.width * 3 := by
    intro j hj
    have hjH : (j : Int) < img.height := by omega
    have hj0 : (0 : Int) ≤ j := Int.ofNat_nonneg j
    apply rowOffset_exact
    · exact mul_nonneg hj0 hW
    · have : (j : Int) * img.width ≤ img.height * img.width :=
        mul_le_mul_of_nonneg_right (le_of_lt hjH) hW
      linarith
  have hmap : ∀ m : Nat, m ≤ img.height.toNat →
      (List.range m).map (fun j : Nat =>
        Event.TIFFWriteScanline tif (HDRPlus.rowOffset img.width 3 j) j 0) =
      (List.range m).map (fun j : Nat =>
        Event.TIFFWriteScanline tif ((j : Int) * img.width * 3) j 0) := by
    intro m hm
    apply List.map_congr_left
    intro j hj
    rw [hoff j (by have := List.mem_range.mp hj; omega)]
  rcases save_tiff_opened lib dir_path img_name img tif hc ho with
    ⟨heq, hall⟩ | ⟨f, hf, hall, hfail, heq⟩
  · rw [hmap _ le_rfl] at heq
    have hall2 : ∀ j : Nat, j < img.height.toNat →
        ¬ lib.TIFFWriteScanline tif ((j : Int) * img.width * 3) j 0 < 0 := by
      intro j hj
      rw [← hoff j hj]
      exact hall j hj
    refine ⟨Or.inl ⟨heq, ?_⟩, ?_⟩
    · rw [heq]
      have hn : (((img.width * 3).toNat : Nat) : Int) = img.width * 3 :=
        Int.toNat_of_nonneg (by omega)
      have hrows : (List.range img.height.toNat).map (fun j : Nat =>
            Event.TIFFWriteScanline tif ((j : Int) * img.width * 3) j 0) =
          (List.range img.height.toNat).map (fun j : Nat =>
            Event.TIFFWriteScanline tif ((j : Int) * ((img.width * 3).toNat : Int)) j 0) := by
        apply List.map_congr_left
        intro j _
        rw [hn, mul_assoc]
      simp only [hrows]
      exact emittedBytes_rows img lib tif _ _ _ _ _ _
    · rw [heq]
      simpa using hall2
  · rw [hmap _ (by omega)] at heq
    have hfail2 : lib.TIFFWriteScanline tif ((f : Int) * img.width * 3) f 0 < 0 := by
      rw [← hoff f hf]
      exact hfail
    refine ⟨Or.inr ⟨f, hf, ?_, hfail2, heq⟩, ?_⟩
    · intro j hj
      rw [← hoff j (by omega)]
      exact hall j hj
    · rw [heq]
      simp only [Bool.false_eq_true, false_iff, not_forall]
      exact ⟨f, hf, fun h => h hfail2⟩

/-- The scanline order at a concrete input: an interleaved 2 by 2 image and a libtiff
whose write of row 1 fails. -/
theorem save_tiff_rows_in_order_example :
    HDRPlus.save_tiff libFailRow1 "out" "img.tiff" (interleavedImage 2 2) =
      ([Event.TIFFOpen "out/img.tiff" "w",
        Event.TIFFSetField 7 Tag.IMAGEWIDTH (TagValue.int 2),
        Event.TIFFSetField 7 Tag.IMAGELENGTH (TagValue.int 2),
        Event.TIFFSetField 7 Tag.SAMPLESPERPIXEL (TagValue.int 3),
        Event.TIFFSetField 7 Tag.BITSPERSAMPLE (TagValue.int 8),
        Event.TIFFSetField 7 Tag.ORIENTATION TagValue.ORIENTATION_TOPLEFT,
        Event.TIFFSetField 7 Tag.PLANARCONFIG TagValue.PLANARCONFIG_CONTIG,
        Event.TIFFSetField 7 Tag.PHOTOMETRIC TagValue.PHOTOMETRIC_RGB,
        Event.TIFFDefaultStripSize 7 6,
        Event.TIFFSetField 7 Tag.ROWSPERSTRIP (TagValue.uint32 6),
        Event.TIFFWriteScanline 7 0 0 0,
        Event.TIFFWriteScanline 7 6 1 0,
        Event.cerr (Msg.scanlineError 1 "out/img.tiff"),
        Event.TIFFClose 7], false) := by
  have hc : (interleavedImage 2 2).channels = 3 := by decide
  have hw : (interleavedImage 2 2).width = 2 := by decide
  have hh : (interleavedImage 2 2).height = 2 := by decide
  simp [HDRPlus.save_tiff, HDRPlus.scanlineLoop, HDRPlus.tagSetup, HDRPlus.rowOffset, hc, hw,
    hh, libFailRow1, toUInt32, wrapInt32]

/-! ## `main` -/

/-- C10 fails on `prog -c 1 -g 2`: here `argc = 5`, and after the two flag pairs the loop
condition evaluates `argv[5]`, the terminating null entry, and uses it as a string. The
indices read by the loop are 1, 1, 2, 3, 3, 3, 4, 5. -/
theorem flag_loop_reads_argv_argc :
    ((["prog", "-c", "1", "-g", "2"] : List String).length = 5) ∧
    (main ["prog", "-c", "1", "-g", "2"] (fun _ _ => burstOf 2 2 2) pipeOffsets libOk).reads =
      [1, 1, 2, 3, 3, 3, 4, 5] ∧
    ¬ ∀ k ∈ (main ["prog", "-c", "1", "-g", "2"] (fun _ _ => burstOf 2 2 2) pipeOffsets
        libOk).reads, k < (["prog", "-c", "1", "-g", "2"] : List String).length := by
  have h : (main ["prog", "-c", "1", "-g", "2"] (fun _ _ => burstOf 2 2 2) pipeOffsets
      libOk).reads = [1, 1, 2, 3, 3, 3, 4, 5] := by
    simp [main, flagLoop, cstrAt]
  refine ⟨rfl, h, ?_⟩
  rw [h]
  decide

/-- C9 fails on `prog -c 1 -g 2`: after the two flag pairs no positional argument
remains, yet `main` does not return 1: the run ends in the flag loop using the null entry
`argv[5]` as a string, before the check `argc - i < 4` is reached. The same happens one
entry further on `prog -c 1 -g 2 -c`. -/
theorem main_flag_pairs_only_faults :
    main ["prog", "-c", "1", "-g", "2"] (fun _ _ => burstOf 2 2 2) pipeOffsets libOk =
      ⟨[1, 1, 2, 3, 3, 3, 4, 5], [], Exit.fault 5⟩ ∧
    (main ["prog", "-c", "1", "-g", "2"] (fun _ _ => burstOf 2 2 2) pipeOffsets libOk).exit ≠
      Exit.status 1 ∧
    main ["prog", "-c", "1", "-g", "2", "-c"] (fun _ _ => burstOf 2 2 2) pipeOffsets libOk =
      ⟨[1, 1, 2, 3, 3, 3, 4, 5, 5, 6], [], Exit.fault 6⟩ := by
  have h : main ["prog", "-c", "1", "-g", "2"] (fun _ _ => burstOf 2 2 2) pipeOffsets libOk =
      ⟨[1, 1, 2, 3, 3, 3, 4, 5], [], Exit.fault 5⟩ := by
    simp [main, flagLoop, cstrAt]
  refine ⟨h, ?_, ?_⟩
  · rw [h]
    decide
  · simp [main, flagLoop, cstrAt]

/-- With fewer than 5 arguments `main` prints the usage line and returns 1; nothing else
happens. -/
theorem main_too_few_arguments (argv : List String) (BurstCtor : String → List String → Burst)
    (p : Pipeline) (lib : TiffLib) (h : argv.length < 5) :
    main argv BurstCtor p lib =
      ⟨[], [Event.cerr (Msg.usage (argv.getD 0 ""))], Exit.status 1⟩ := by
  have h5 : ((argv.length : Nat) : Int) < 5 := by omega
  simp [main, h5]

/-- When the flag loop ends without a fault, every index of `argv` it has read is below
`argc`. -/
theorem flagLoop_reads_in_range (argv : List String) (i : Nat) (c g : Scalar)
    (h : ∀ k, (flagLoop argv i c g).2 ≠ LoopExit.fault k) :
    ∀ k ∈ (flagLoop argv i c g).1, k < argv.length := by
  induction i, c, g using flagLoop.induct argv with
  | case1 i c g hi h0 hc h1 ih =>
    rw [flagLoop] at h ⊢
    simp only [hi, h0, hc, h1, dite_true, if_true] at h ⊢
    intro k hk
    simp only [List.mem_cons] at hk
    rcases hk with hk | hk | hk | hk
    · omega
    · omega
    · omega
    · exact ih h k hk
  | case2 i c g hi h0 hc h1 =>
    rw [flagLoop] at h
    simp only [hi, h0, hc, h1, dite_true, if_true, dite_false] at h
    exact absurd rfl (h (i + 1))
  | case3 i c g hi h0 hc hg h1 ih =>
    rw [flagLoop] at h ⊢
    simp only [hi, h0, h1, dite_true, if_true, if_neg hc, if_pos hg] at h ⊢
    intro k hk
    simp only [List.mem_cons] at hk
    rcases hk with hk | hk | hk | hk | hk
    · omega
    · omega
    · omega
    · omega
    · exact ih h k hk
  | case4 i c g hi h0 hc hg h1 =>
    rw [flagLoop] at h
    simp only [hi, h0, h1, dite_true, if_true, if_neg hc, if_pos hg, dite_false] at h
    exact absurd rfl (h (i + 1))
  | case5 i c g hi h0 hc hg =>
    rw [flagLoop]
    simp only [hi, h0, dite_true, if_true, if_neg hc, if_neg hg]
    intro k hk
    simp only [List.mem_cons, List.mem_singleton, List.not_mem_nil, or_false, or_self] at hk
    omega
  | case6 i c g hi h0 =>
    rw [flagLoop]
    simp only [hi, h0, dite_true, if_false]
    intro k hk
    simp only [List.mem_singleton] at hk
    omega
  | case7 i c g hi =>
    rw [flagLoop] at h
    simp only [hi, dite_false] at h
    exact absurd rfl (h i)

/-- The positional reading succeeds exactly on 4 or more arguments, and then yields the
first, the second and the remaining ones. -/
theorem positionalArgs_drop (argv : List String) (j : Nat) :
    (argv.length < j + 4 → positionalArgs (argv.drop j) = none) ∧
    (j + 4 ≤ argv.length →
      positionalArgs (argv.drop j) = some (argv.getD j "", argv.getD (j + 1) "", argv.drop (j + 2))) := by
  induction argv generalizing j with
  | nil => simp [positionalArgs]
  | cons a l ih =>
    cases j with
    | zero =>
      match l with
      | [] => simp [positionalArgs]
      | [_] => simp [positionalArgs]
      | [_, _] => simp [positionalArgs]
      | _ :: _ :: _ :: _ => simp [positionalArgs]
    | succ j =>
      have := ih j
      simp only [List.length_cons, List.drop_succ_cons, List.getD_cons_succ] at this ⊢
      constructor
      · intro h; exact this.1 (by omega)
      · intro h; exact this.2 (by omega)

/-- How the flag loop relates to C9's reading of the arguments from index `i` on: a fault
happens only at an index `k ≥ argc` and only where C9 asks for exit status 1; an invalid
flag is an error for C9 too; and when the loop ends at index `j`, C9's reading is the
positional reading of the arguments from `j` on. -/
theorem flagLoop_usage (argv : List String) (i : Nat) (c g : Scalar) :
    match (flagLoop argv i c g).2 with
    | LoopExit.fault k => argv.length ≤ k ∧ usageAfterFlags (argv.drop i) = none
    | LoopExit.invalidFlag _ => usageAfterFlags (argv.drop i) = none
    | LoopExit.done j _ _ =>
      j < argv.length ∧ usageAfterFlags (argv.drop i) = positionalArgs (argv.drop j) := by
  induction i, c, g using flagLoop.induct argv with
  | case1 i c g hi h0 hc h1 ih =>
    rw [flagLoop]
    simp only [hi, h0, h1, dite_true, if_true, if_pos hc]
    have hd : argv.drop i = argv[i] :: argv[i + 1] :: argv.drop (i + 2) := by
      rw [List.drop_eq_getElem_cons hi, List.drop_eq_getElem_cons h1]
    have hu : usageAfterFlags (argv.drop i) = usageAfterFlags (argv.drop (i + 2)) := by
      rw [hd]; simp [usageAfterFlags, h0, hc]
    rw [hu]
    exact ih
  | case2 i c g hi h0 hc h1 =>
    rw [flagLoop]
    simp only [hi, h0, h1, dite_true, if_true, if_pos hc, dite_false]
    have hd : argv.drop i = [argv[i]] := by
      rw [List.drop_eq_getElem_cons hi, List.drop_of_length_le (by omega)]
    refine ⟨by omega, ?_⟩
    rw [hd]; simp [usageAfterFlags]
  | case3 i c g hi h0 hc hg h1 ih =>
    rw [flagLoop]
    simp only [hi, h0, h1, dite_true, if_true, if_neg hc, if_pos hg]
    have hd : argv.drop i = argv[i] :: argv[i + 1] :: argv.drop (i + 2) := by
      rw [List.drop_eq_getElem_cons hi, List.drop_eq_getElem_cons h1]
    have hu : usageAfterFlags (argv.drop i) = usageAfterFlags (argv.drop (i + 2)) := by
      rw [hd]; simp [usageAfterFlags, h0, hg]
    rw [hu]
    exact ih
  | case4 i c g hi h0 hc hg h1 =>
    rw [flagLoop]
    simp only [hi, h0, h1, dite_true, if_true, if_neg hc, if_pos hg, dite_false]
    have hd : argv.drop i = [argv[i]] := by
      rw [List.drop_eq_getElem_cons hi, List.drop_of_length_le (by omega)]
    refine ⟨by omega, ?_⟩
    rw [hd]; simp [usageAfterFlags]
  | case5 i c g hi h0 hc hg =>
    rw [flagLoop]
    simp only [hi, h0, dite_true, if_true, if_neg hc, if_neg hg]
    by_cases h1 : i + 1 < argv.length
    · have hd : argv.drop i = argv[i] :: argv[i + 1] :: argv.drop (i + 2) := by
        rw [List.drop_eq_getElem_cons hi, List.drop_eq_getElem_cons h1]
      rw [hd]; simp [usageAfterFlags, h0, hc, hg]
    · have hd : argv.drop i = [argv[i]] := by
        rw [List.drop_eq_getElem_cons hi, List.drop_of_length_le (by omega)]
      rw [hd]; simp [usageAfterFlags]
  | case6 i c g hi h0 =>
    rw [flagLoop]
    simp only [hi, h0, dite_true, if_false]
    refine ⟨trivial, ?_⟩
    by_cases h1 : i + 1 < argv.length
    · have hd : argv.drop i = argv[i] :: argv[i + 1] :: argv.drop (i + 2) := by
        rw [List.drop_eq_getElem_cons hi, List.drop_eq_getElem_cons h1]
      rw [hd]; simp [usageAfterFlags, h0]
    · have hd : argv.drop i = [argv[i]] := by
        rw [List.drop_eq_getElem_cons hi, List.drop_of_length_le (by omega)]
      rw [hd]; simp [usageAfterFlags, positionalArgs]
  | case7 i c g hi =>
    rw [flagLoop]
    simp only [hi, dite_false]
    refine ⟨by omega, ?_⟩
    rw [List.drop_of_length_le (by omega)]
    simp [usageAfterFlags]

/-- Apart from the fault of the flag loop, `main` follows C9's reading of the command
line. On every argument vector one of three things happens: the flag loop uses an entry
`argv[k]` with `k ≥ argc` (only on command lines for which C9 asks for exit status 1);
or C9 asks for exit status 1 and `main` returns 1 having done nothing but print to
`std::cerr`; or C9 yields directory, output name and raw names, and `main` goes on with
exactly these to construct the burst, process it and save the result. -/
theorem main_follows_usage_unless_fault (argv : List String)
    (BurstCtor : String → List String → Burst) (p : Pipeline) (lib : TiffLib) :
    (∃ k, (main argv BurstCtor p lib).exit = Exit.fault k ∧ argv.length ≤ k ∧
      usageContract argv = none) ∨
    (usageContract argv = none ∧ (main argv BurstCtor p lib).exit = Exit.status 1 ∧
      ∀ e ∈ (main argv BurstCtor p lib).events, ∃ m, e = Event.cerr m) ∨
    (∃ dir_path out_name in_names c g,
      usageContract argv = some (dir_path, out_name, in_names) ∧
      (main argv BurstCtor p lib).events =
        (runBurst dir_path out_name in_names c g BurstCtor p lib).1 ∧
      (main argv BurstCtor p lib).exit =
        (runBurst dir_path out_name in_names c g BurstCtor p lib).2) := by
  by_cases h5 : argv.length < 5
  · right; left
    rw [main_too_few_arguments argv BurstCtor p lib h5]
    refine ⟨by simp [usageContract, h5], rfl, ?_⟩
    intro e he
    simp only [List.mem_singleton] at he
    exact ⟨_, he⟩
  · have h5i : ¬ ((argv.length : Nat) : Int) < 5 := by omega
    have hu : usageContract argv = usageAfterFlags (argv.drop 1) := by
      simp [usageContract, h5]
    have hl := flagLoop_usage argv 1 (Scalar.lit "3.8f") (Scalar.lit "1.1f")
    rw [hu]
    simp only [main, h5i, if_false]
    rcases hfl : flagLoop argv 1 (Scalar.lit "3.8f") (Scalar.lit "1.1f") with ⟨reads, ex⟩
    rw [hfl] at hl
    cases ex with
    | fault k =>
      left
      exact ⟨k, rfl, hl.1, hl.2⟩
    | invalidFlag k =>
      right; left
      refine ⟨hl, rfl, ?_⟩
      intro e he
      simp only [List.mem_singleton] at he
      exact ⟨_, he⟩
    | done j c g =>
      obtain ⟨hj, hpos⟩ := hl
      by_cases h4 : ((argv.length : Nat) : Int) - (j : Int) < 4
      · right; left
        simp only [h4, if_true]
        refine ⟨?_, by first | rfl | trivial, ?_⟩
        · rw [hpos]; exact (positionalArgs_drop argv j).1 (by omega)
        · intro e he
          simp only [List.mem_singleton] at he
          exact ⟨_, he⟩
      · right; right
        simp only [h4, if_false]
        refine ⟨argv.getD j "", argv.getD (j + 1) "", argv.drop (j + 2), c, g, ?_, rfl, rfl⟩
        rw [hpos]; exact (positionalArgs_drop argv j).2 (by omega)

end HDRPlusCpp
